import Mathlib

/-!
Verification of the Connection Discovery & Privacy-Aware LLM Orchestration
Engine of the bdpkg knowledge-graph repository, together with the parts of
the repository that do exist as source (the PostgreSQL bootstrap script and
the React frontend components).

The spec states (section 2) that no implementation currently exists for the
core engine subsystem; the definitions for the classifier, router,
invocation layer and discovery engine below are therefore modelled from the
spec's own words, as marked in their doc comments.  The SQL and JSX
components are embedded from the source files.
-/

namespace Bdpkg

/-- Privacy levels of a node, from the `privacy_level_enum` of
`scripts/init-postgres.sql` and spec section 3: public, private, sensitive,
encrypted. -/
inductive PrivacyLevel where
  | «public»
  | «private»
  | sensitive
  | encrypted
deriving DecidableEq, Repr

/-- Task kinds handled by the Provider Router (spec section 2): tagging,
connection-discovery, insight-generation. -/
inductive TaskKind where
  | tagging
  | connection
  | insight
deriving DecidableEq, Repr, BEq

/-- Relation kinds of an Edge (spec section 3). -/
inductive RelationKind where
  | related
  | causal
  | temporal
  | contradicts
  | supports
  | references
deriving DecidableEq, Repr, BEq

/-- Node types, from the `node_type_enum` of `scripts/init-postgres.sql`. -/
inductive NodeType where
  | note
  | document
  | person
  | concept
  | project
  | company
  | vendor
  | technology
  | location
  | event
  | task
  | topic
  | book
  | article
  | bookmark
  | email
  | rss_item
deriving DecidableEq, Repr

/-- Modelled from the spec: Provider Profile (spec section 3) — static
configuration describing one LLM backend: `name`, `is_local`,
`capability_tags`, `cost_per_1k_tokens`, `max_retries`, `timeout_ms`. -/
structure ProviderProfile where
  name : String
  is_local : Bool
  capability_tags : List TaskKind
  cost_per_1k_tokens : Rat
  max_retries : Nat
  timeout_ms : Nat
deriving DecidableEq, Repr

/-- Modelled from the spec: a privacy level is "restricted" when it is
`sensitive` or `encrypted` (spec sections 3 and 4.2). -/
def isRestricted : PrivacyLevel → Bool
  | .sensitive => true
  | .encrypted => true
  | _ => false

/-- Routing failure of the Provider Router (spec section 4.2). -/
inductive RouterError where
  | NoEligibleProvider
deriving DecidableEq, Repr

/-- Modelled from the spec: pick the cheapest profile by
`cost_per_1k_tokens` among `p` and `ps` (spec section 4.2 step 3). -/
def cheapestIn (p : ProviderProfile) (ps : List ProviderProfile) : ProviderProfile :=
  ps.foldl (fun best q => if q.cost_per_1k_tokens < best.cost_per_1k_tokens then q else best) p

/-- Modelled from the spec: step 1 of `select_provider` (spec section 4.2),
the filter to profiles whose `capability_tags` contains the task kind. -/
def capFiltered (tk : TaskKind) (candidates : List ProviderProfile) : List ProviderProfile :=
  candidates.filter (fun p => p.capability_tags.contains tk)

/-- Modelled from the spec: steps 1 and 2 of `select_provider` (spec
section 4.2) — capability filter, then, when the privacy level is
sensitive or encrypted, the further filter to `is_local = true`. -/
def eligible (tk : TaskKind) (pl : PrivacyLevel)
    (candidates : List ProviderProfile) : List ProviderProfile :=
  if isRestricted pl then (capFiltered tk candidates).filter (fun p => p.is_local)
  else capFiltered tk candidates

/-- Modelled from the spec: `select_provider(task_kind, privacy_level,
candidates)` (spec section 4.2).  Step 1 filters to profiles whose
`capability_tags` contains the task kind; step 2 filters further to
`is_local = true` when the privacy level is sensitive or encrypted, failing
with `NoEligibleProvider` on an empty set; step 3 picks the configured
default for the task kind if present, else the cheapest remaining. -/
def select_provider (tk : TaskKind) (pl : PrivacyLevel) (dflt : TaskKind → String)
    (candidates : List ProviderProfile) : Except RouterError ProviderProfile :=
  match eligible tk pl candidates with
  | [] => .error .NoEligibleProvider
  | p :: rest =>
      match (p :: rest).find? (fun q => q.name == dflt tk) with
      | some q => .ok q
      | none => .ok (cheapestIn p rest)

theorem cheapestIn_mem (p : ProviderProfile) (ps : List ProviderProfile) :
    cheapestIn p ps ∈ p :: ps := by
  induction ps generalizing p with
  | nil => simp [cheapestIn]
  | cons q qs ih =>
      have heq : cheapestIn p (q :: qs) =
          cheapestIn (if q.cost_per_1k_tokens < p.cost_per_1k_tokens then q else p) qs := rfl
      rw [heq]
      have h := ih (if q.cost_per_1k_tokens < p.cost_per_1k_tokens then q else p)
      rcases List.mem_cons.mp h with h | h
      · rw [h]
        by_cases hc : q.cost_per_1k_tokens < p.cost_per_1k_tokens
        · rw [if_pos hc]
          exact List.mem_cons_of_mem _ (List.mem_cons_self _ _)
        · rw [if_neg hc]
          exact List.mem_cons_self _ _
      · exact List.mem_cons_of_mem _ (List.mem_cons_of_mem _ h)

theorem select_provider_mem (tk : TaskKind) (pl : PrivacyLevel) (dflt : TaskKind → String)
    (candidates : List ProviderProfile) (p : ProviderProfile)
    (h : select_provider tk pl dflt candidates = .ok p) :
    p ∈ eligible tk pl candidates := by
  unfold select_provider at h
  split at h
  · simp at h
  · next hd tl hm =>
      rw [hm]
      split at h
      · next q hf =>
          injection h with h1
          subst h1
          exact List.mem_of_find?_eq_some hf
      · next hf =>
          injection h with h1
          subst h1
          exact cheapestIn_mem hd tl

/-- Helper: when the privacy level is restricted, any provider returned by
`select_provider` is local. -/
theorem select_provider_local (tk : TaskKind) (pl : PrivacyLevel) (dflt : TaskKind → String)
    (candidates : List ProviderProfile) (p : ProviderProfile)
    (hres : isRestricted pl = true)
    (h : select_provider tk pl dflt candidates = .ok p) :
    p.is_local = true := by
  have hmem := select_provider_mem tk pl dflt candidates p h
  unfold eligible at hmem
  rw [if_pos hres] at hmem
  have := (List.mem_filter.mp hmem).2
  simpa using this

/-- Helper: when the privacy level is restricted, `select_provider` fails
with `NoEligibleProvider` exactly when the locally-filtered candidate set is
empty. -/
theorem select_provider_err_iff (tk : TaskKind) (pl : PrivacyLevel) (dflt : TaskKind → String)
    (candidates : List ProviderProfile)
    (hres : isRestricted pl = true) :
    select_provider tk pl dflt candidates = .error .NoEligibleProvider ↔
      (capFiltered tk candidates).filter (fun q => q.is_local) = [] := by
  have helig : eligible tk pl candidates =
      (capFiltered tk candidates).filter (fun q => q.is_local) := by
    unfold eligible
    rw [if_pos hres]
  unfold select_provider
  rw [helig]
  constructor
  · intro h
    by_contra hne
    obtain ⟨hd, tl, hcons⟩ := List.exists_cons_of_ne_nil hne
    rw [hcons] at h
    have h2 : (match (hd :: tl).find? (fun q => q.name == dflt tk) with
        | some q => Except.ok q
        | none => Except.ok (cheapestIn hd tl)) =
        (Except.error RouterError.NoEligibleProvider :
          Except RouterError ProviderProfile) := h
    rcases hf : (hd :: tl).find? (fun q => q.name == dflt tk) with _ | q
    · rw [hf] at h2
      simp at h2
    · rw [hf] at h2
      simp at h2
  · intro h
    rw [h]

/-- C2: for every task kind, privacy level and candidate list, if the
privacy level is sensitive or encrypted then `select_provider` restricts
the capability-filtered candidates to those with `is_local = true` (any
returned provider is drawn from that restricted set, hence local), and
returns `NoEligibleProvider` exactly when that restricted set is empty; it
never returns a remote provider for sensitive or encrypted content. -/
theorem select_provider_privacy (tk : TaskKind) (pl : PrivacyLevel)
    (dflt : TaskKind → String) (candidates : List ProviderProfile)
    (hres : isRestricted pl = true) :
    (select_provider tk pl dflt candidates = .error .NoEligibleProvider ↔
      (capFiltered tk candidates).filter (fun q => q.is_local) = []) ∧
    (∀ p, select_provider tk pl dflt candidates = .ok p →
      p.is_local = true ∧
      p ∈ (capFiltered tk candidates).filter (fun q => q.is_local)) := by
  refine ⟨select_provider_err_iff tk pl dflt candidates hres, ?_⟩
  intro p h
  refine ⟨select_provider_local tk pl dflt candidates p hres h, ?_⟩
  have hmem := select_provider_mem tk pl dflt candidates p h
  unfold eligible at hmem
  rw [if_pos hres] at hmem
  exact hmem

/-- Concrete remote-only provider used by witnesses. -/
def remoteProvider : ProviderProfile :=
  { name := "cloud-llm", is_local := false,
    capability_tags := [.tagging, .connection, .insight],
    cost_per_1k_tokens := 3, max_retries := 2, timeout_ms := 30000 }

/-- Concrete local provider used by witnesses. -/
def localProvider : ProviderProfile :=
  { name := "ollama-local", is_local := true,
    capability_tags := [.tagging, .connection, .insight],
    cost_per_1k_tokens := 0, max_retries := 1, timeout_ms := 60000 }

/-- Witness for C2: with a single remote candidate and sensitive content,
`select_provider` fails with `NoEligibleProvider`. -/
theorem select_provider_privacy_witness :
    isRestricted .sensitive = true ∧
    select_provider .connection .sensitive (fun _ => "cloud-llm") [remoteProvider] =
      .error .NoEligibleProvider := by
  refine ⟨rfl, ?_⟩
  exact (select_provider_privacy .connection .sensitive (fun _ => "cloud-llm")
    [remoteProvider] rfl).1.mpr (by decide)

/-- Modelled from the spec: Node (spec section 3) — `id`, `type`,
`privacy_level`, `content_fingerprint`, `tags`, together with the
classifier inputs of spec section 4.1: the explicit user-set level and the
explicit shareable mark. -/
structure Node where
  id : Nat
  type : NodeType
  privacy_level : PrivacyLevel
  content_fingerprint : Nat
  tags : List String
  explicit_level : Option PrivacyLevel
  shareable : Bool
deriving DecidableEq, Repr

/-- Modelled from the spec: the classifier configuration, the configured
sensitive-tag list (spec sections 4.1 and 6). -/
structure ClassifierConfig where
  sensitive_tags : List String
deriving DecidableEq, Repr

/-- Modelled from the spec: `classify(node)` (spec section 4.1) — (a) an
explicit user-set level overrides all else; (b) else, if any of the node's
tags intersect the configured sensitive-tag set, the level is `sensitive`;
(c) else `private` by default, `public` only if explicitly marked
shareable.  Pure function over node and config. -/
def classify (cfg : ClassifierConfig) (n : Node) : PrivacyLevel :=
  match n.explicit_level with
  | some l => l
  | none =>
      if n.tags.any (fun t => cfg.sensitive_tags.contains t) then .sensitive
      else if n.shareable then .«public» else .«private»

/-- C5: `classify` is a pure function (hence deterministic: equal (node,
config) inputs give equal levels by definition); it returns the explicit
user-set level when one exists; otherwise it returns `sensitive` exactly
when the node's tag set intersects the configured sensitive-tag set;
otherwise `public` when the node is explicitly marked shareable and
`private` in all remaining cases. -/
theorem classify_spec (cfg : ClassifierConfig) (n : Node) :
    (∀ l, n.explicit_level = some l → classify cfg n = l) ∧
    (n.explicit_level = none →
      ((∃ t, t ∈ n.tags ∧ t ∈ cfg.sensitive_tags) → classify cfg n = .sensitive) ∧
      ((¬ ∃ t, t ∈ n.tags ∧ t ∈ cfg.sensitive_tags) →
        (n.shareable = true → classify cfg n = .«public») ∧
        (n.shareable = false → classify cfg n = .«private»))) ∧
    classify cfg n = classify cfg n := by
  have hany : (n.tags.any (fun t => cfg.sensitive_tags.contains t) = true) ↔
      ∃ t, t ∈ n.tags ∧ t ∈ cfg.sensitive_tags := by
    simp [List.any_eq_true]
  refine ⟨?_, ?_, rfl⟩
  · intro l hl
    unfold classify
    rw [hl]
  · intro hnone
    constructor
    · intro hex
      unfold classify
      rw [hnone]
      simp only
      rw [if_pos (hany.mpr hex)]
    · intro hnex
      have hfalse : n.tags.any (fun t => cfg.sensitive_tags.contains t) = false := by
        rcases hb : n.tags.any (fun t => cfg.sensitive_tags.contains t) with _ | _
        · rfl
        · exact absurd (hany.mp hb) hnex
      have hcond : ¬ (n.tags.any (fun t => cfg.sensitive_tags.contains t) = true) := by
        rw [hfalse]
        exact Bool.false_ne_true
      constructor
      · intro hsh
        unfold classify
        rw [hnone]
        simp only
        rw [if_neg hcond, if_pos hsh]
      · intro hsh
        unfold classify
        rw [hnone]
        simp only
        rw [if_neg hcond, if_neg (by rw [hsh]; exact Bool.false_ne_true)]

/-- Concrete node with an explicit user-set level, used by the C5 witness. -/
def witnessNode : Node :=
  { id := 7, type := .note, privacy_level := .«private»,
    content_fingerprint := 42, tags := ["misc"],
    explicit_level := some .encrypted, shareable := true }

/-- Witness for C5: a node with an explicit user-set `encrypted` level is
classified `encrypted` regardless of its tags and shareable mark. -/
theorem classify_spec_witness :
    witnessNode.explicit_level = some PrivacyLevel.encrypted ∧
    classify ⟨["therapy"]⟩ witnessNode = PrivacyLevel.encrypted :=
  ⟨rfl, (classify_spec ⟨["therapy"]⟩ witnessNode).1 .encrypted rfl⟩

/-- Modelled from the spec: Edge (spec section 3) — `source_id`,
`target_id` (unordered pair represented canonically), `relation_kind`,
`confidence`, `rationale`, `discovered_by`.  `discovered_by` is modelled as
the resolved Provider Profile. -/
structure Edge where
  source_id : Nat
  target_id : Nat
  relation_kind : RelationKind
  confidence : Rat
  rationale : String
  discovered_by : ProviderProfile
deriving DecidableEq, Repr

/-- Modelled from the spec: two ordered id pairs denote the same unordered
node pair. -/
def sameUnorderedPair (a1 b1 a2 b2 : Nat) : Bool :=
  (a1 == a2 && b1 == b2) || (a1 == b2 && b1 == a2)

/-- Modelled from the spec: edges `x` and `e` share the deduplication key
(unordered node pair, relation kind) of spec section 3. -/
def edgeKeyMatches (x e : Edge) : Bool :=
  sameUnorderedPair x.source_id x.target_id e.source_id e.target_id &&
    x.relation_kind == e.relation_kind

/-- Modelled from the spec: the re-discovery update of spec sections 3 and
4.5 — when `x` matches the key of the new result `e`, update its
confidence and rationale from `e`, else leave `x` unchanged. -/
def applyUpdate (e x : Edge) : Edge :=
  if edgeKeyMatches x e then { x with confidence := e.confidence, rationale := e.rationale }
  else x

/-- Modelled from the spec: edge upsert (spec sections 3 and 4.5) — if an
edge of the same (unordered pair, relation kind) already exists, update its
confidence/rationale only when the new confidence is higher, otherwise
leave the existing edge untouched; if none exists, append the new edge. -/
def upsert_edge (g : List Edge) (e : Edge) : List Edge :=
  match g.find? (fun x => edgeKeyMatches x e) with
  | none => g ++ [e]
  | some old => if old.confidence < e.confidence then g.map (applyUpdate e) else g

theorem edgeKeyMatches_applyUpdate (e x : Edge) :
    edgeKeyMatches (applyUpdate e x) e = edgeKeyMatches x e := by
  unfold applyUpdate
  by_cases h : edgeKeyMatches x e = true
  · rw [if_pos h]
    exact h.trans h.symm ▸ rfl
  · rw [if_neg h]

/-- C3: edge upsert is confidence-monotone — when an edge with the same
(unordered pair, relation kind) key already exists, the stored confidence
after the upsert is the maximum of the old and new confidences, and when
the new confidence is not higher the whole graph (in particular the
existing edge's confidence and rationale) is left completely unchanged. -/
theorem upsert_edge_monotone (g : List Edge) (e old : Edge)
    (h : g.find? (fun x => edgeKeyMatches x e) = some old) :
    (∃ upd, (upsert_edge g e).find? (fun x => edgeKeyMatches x e) = some upd ∧
      upd.confidence = max old.confidence e.confidence ∧
      (e.confidence ≤ old.confidence → upd = old)) ∧
    (e.confidence ≤ old.confidence → upsert_edge g e = g) := by
  have hold : edgeKeyMatches old e = true := by
    have h2 := List.find?_some h
    simpa using h2
  unfold upsert_edge
  rw [h]
  have hred : (match some old with
      | none => g ++ [e]
      | some o => if o.confidence < e.confidence then List.map (applyUpdate e) g else g) =
      (if old.confidence < e.confidence then List.map (applyUpdate e) g else g) := rfl
  rw [hred]
  by_cases hc : old.confidence < e.confidence
  · rw [if_pos hc]
    refine ⟨⟨applyUpdate e old, ?_, ?_, ?_⟩, ?_⟩
    · rw [List.find?_map]
      have hpred : (fun x => edgeKeyMatches x e) ∘ applyUpdate e =
          fun x => edgeKeyMatches x e := by
        funext x
        exact edgeKeyMatches_applyUpdate e x
      rw [hpred, h]
      rfl
    · unfold applyUpdate
      rw [if_pos hold]
      simp [max_eq_right (le_of_lt hc)]
    · intro hle
      exact absurd hc (not_lt.mpr hle)
    · intro hle
      exact absurd hc (not_lt.mpr hle)
  · rw [if_neg hc]
    refine ⟨⟨old, h, ?_, fun _ => rfl⟩, fun _ => rfl⟩
    rw [max_eq_left (le_of_not_lt hc)]

/-- Concrete existing edge for the C3 witness. -/
def oldEdge : Edge :=
  { source_id := 1, target_id := 2, relation_kind := .related,
    confidence := 1, rationale := "strong prior finding",
    discovered_by := localProvider }

/-- Concrete lower-confidence re-discovery for the C3 witness. -/
def newEdge : Edge :=
  { source_id := 2, target_id := 1, relation_kind := .related,
    confidence := 0, rationale := "weak re-discovery",
    discovered_by := localProvider }

/-- Witness for C3: upserting a lower-confidence result for an existing
(pair, relation kind) leaves the graph unchanged. -/
theorem upsert_edge_monotone_witness :
    [oldEdge].find? (fun x => edgeKeyMatches x newEdge) = some oldEdge ∧
    upsert_edge [oldEdge] newEdge = [oldEdge] := by
  refine ⟨by decide, ?_⟩
  exact (upsert_edge_monotone [oldEdge] newEdge oldEdge (by decide)).2 (by decide)

/-- Modelled from the spec: the structured result of a
connection-discovery invocation (spec section 4.3):
`{relation_kind, confidence, rationale}`. -/
structure StructuredResult where
  relation_kind : RelationKind
  confidence : Rat
  rationale : String
deriving DecidableEq, Repr

/-- Invocation failures (spec section 4.3): `ProviderTimeout`,
`ProviderRateLimited`, `ProviderError`. -/
inductive InvokeErr where
  | ProviderTimeout
  | ProviderRateLimited
  | ProviderError
deriving DecidableEq, Repr

/-- Modelled from the spec: only `ProviderTimeout` and
`ProviderRateLimited` are retried; `ProviderError` is surfaced
immediately (spec section 4.3). -/
def retryable : InvokeErr → Bool
  | .ProviderTimeout => true
  | .ProviderRateLimited => true
  | .ProviderError => false

/-- Modelled from the spec: exponential backoff delay — base delay
doubling per attempt, capped (spec section 4.3). -/
def backoffDelay (base cap attempt : Nat) : Nat :=
  min (base * 2 ^ attempt) cap

/-- Modelled from the spec: observable data of a single provider attempt —
token counts, latency and cost estimate. -/
structure AttemptInfo where
  input_tokens : Nat
  output_tokens : Nat
  latency_ms : Nat
  cost_estimate : Rat
deriving DecidableEq, Repr

/-- Modelled from the spec: the outcome of one provider attempt, either a
structured result or a classified failure, both carrying the attempt's
observable data. -/
inductive AttemptResult where
  | success (r : StructuredResult) (info : AttemptInfo)
  | failure (e : InvokeErr) (info : AttemptInfo)
deriving DecidableEq, Repr

/-- Modelled from the spec: Invocation Record (spec section 3) —
`task_kind`, `provider`, `privacy_level_at_call`, token counts,
`cost_estimate`, `latency_ms`, outcome, appended to the Cost Ledger. -/
structure InvocationRecord where
  task_kind : TaskKind
  provider : String
  privacy_level_at_call : PrivacyLevel
  input_token_count : Nat
  output_token_count : Nat
  cost_estimate : Rat
  latency_ms : Nat
  succeeded : Bool
deriving DecidableEq, Repr

/-- Observable data of an attempt result. -/
def infoOf : AttemptResult → AttemptInfo
  | .success _ i => i
  | .failure _ i => i

/-- Whether an attempt result is a success. -/
def succeededOf : AttemptResult → Bool
  | .success _ _ => true
  | .failure _ _ => false

/-- Modelled from the spec: the Invocation Record emitted for one attempt
(spec section 4.3: every attempt, success or failure, emits one record
with token counts and latency). -/
def mkRecord (tk : TaskKind) (pl : PrivacyLevel) (p : ProviderProfile)
    (a : AttemptResult) : InvocationRecord :=
  { task_kind := tk, provider := p.name, privacy_level_at_call := pl,
    input_token_count := (infoOf a).input_tokens,
    output_token_count := (infoOf a).output_tokens,
    cost_estimate := (infoOf a).cost_estimate,
    latency_ms := (infoOf a).latency_ms,
    succeeded := succeededOf a }

/-- Modelled from the spec: the bounded retry loop of `invoke` (spec
section 4.3 and design note of section 9: an explicit bounded loop with
attempt counters).  `i` is the index of the current attempt, the second
argument the number of retries still allowed; `oracle` gives the outcome
of each attempt.  Returns the final result and the Invocation Records of
all attempts, in order. -/
def invokeGo (tk : TaskKind) (pl : PrivacyLevel) (p : ProviderProfile)
    (oracle : Nat → AttemptResult) :
    Nat → Nat → Except InvokeErr StructuredResult × List InvocationRecord
  | i, 0 =>
      match oracle i with
      | .success r _ => (.ok r, [mkRecord tk pl p (oracle i)])
      | .failure e _ => (.error e, [mkRecord tk pl p (oracle i)])
  | i, fuel + 1 =>
      match oracle i with
      | .success r _ => (.ok r, [mkRecord tk pl p (oracle i)])
      | .failure e _ =>
          if retryable e then
            let next := invokeGo tk pl p oracle (i + 1) fuel
            (next.1, mkRecord tk pl p (oracle i) :: next.2)
          else (.error e, [mkRecord tk pl p (oracle i)])

/-- Modelled from the spec: `invoke(provider, prompt, task_kind)` (spec
section 4.3) — starts at attempt 0 with the provider's configured
`max_retries` as the retry budget. -/
def invoke (tk : TaskKind) (pl : PrivacyLevel) (p : ProviderProfile)
    (oracle : Nat → AttemptResult) :
    Except InvokeErr StructuredResult × List InvocationRecord :=
  invokeGo tk pl p oracle 0 p.max_retries

theorem invokeGo_spec (tk : TaskKind) (pl : PrivacyLevel) (p : ProviderProfile)
    (oracle : Nat → AttemptResult) :
    ∀ fuel i,
      1 ≤ (invokeGo tk pl p oracle i fuel).2.length ∧
      (invokeGo tk pl p oracle i fuel).2.length ≤ fuel + 1 ∧
      (invokeGo tk pl p oracle i fuel).2 =
        (List.range (invokeGo tk pl p oracle i fuel).2.length).map
          (fun k => mkRecord tk pl p (oracle (i + k))) ∧
      (∀ k, k + 1 < (invokeGo tk pl p oracle i fuel).2.length →
        ∃ e info, oracle (i + k) = .failure e info ∧ retryable e = true) ∧
      (∀ e, (invokeGo tk pl p oracle i fuel).1 = .error e →
        ∃ info, oracle (i + ((invokeGo tk pl p oracle i fuel).2.length - 1)) =
          .failure e info) ∧
      (∀ e info, oracle i = .failure e info → retryable e = false →
        (invokeGo tk pl p oracle i fuel).1 = .error e ∧
        (invokeGo tk pl p oracle i fuel).2.length = 1) := by
  intro fuel
  induction fuel with
  | zero =>
      intro i
      rcases horacle : oracle i with ⟨r, inf⟩ | ⟨e, inf⟩
      · have hunf : invokeGo tk pl p oracle i 0 =
            (.ok r, [mkRecord tk pl p (oracle i)]) := by
          simp only [invokeGo, horacle]
        have hfst : (invokeGo tk pl p oracle i 0).1 = .ok r := by rw [hunf]
        have hsnd : (invokeGo tk pl p oracle i 0).2 =
            [mkRecord tk pl p (oracle i)] := by rw [hunf]
        have hlen : (invokeGo tk pl p oracle i 0).2.length = 1 := by
          rw [hsnd]
          rfl
        refine ⟨by omega, by omega, ?_, ?_, ?_, ?_⟩
        · rw [hsnd]
          simp only [List.length_singleton, List.range_succ_eq_map, List.range_zero, List.map_cons,
            List.map_nil, Nat.add_zero]
        · intro k hk
          rw [hlen] at hk
          exact absurd hk (by omega)
        · intro e2 he
          rw [hfst] at he
          exact Except.noConfusion he
        · intro e2 info2 hor2 hre2
          exact AttemptResult.noConfusion hor2
      · have hunf : invokeGo tk pl p oracle i 0 =
            (.error e, [mkRecord tk pl p (oracle i)]) := by
          simp only [invokeGo, horacle]
        have hfst : (invokeGo tk pl p oracle i 0).1 = .error e := by rw [hunf]
        have hsnd : (invokeGo tk pl p oracle i 0).2 =
            [mkRecord tk pl p (oracle i)] := by rw [hunf]
        have hlen : (invokeGo tk pl p oracle i 0).2.length = 1 := by
          rw [hsnd]
          rfl
        refine ⟨by omega, by omega, ?_, ?_, ?_, ?_⟩
        · rw [hsnd]
          simp only [List.length_singleton, List.range_succ_eq_map, List.range_zero, List.map_cons,
            List.map_nil, Nat.add_zero]
        · intro k hk
          rw [hlen] at hk
          exact absurd hk (by omega)
        · intro e2 he
          rw [hfst] at he
          injection he with h1
          subst h1
          refine ⟨inf, ?_⟩
          rw [hlen]
          simpa using horacle
        · intro e2 info2 hor2 hre2
          injection hor2 with h1 h2
          subst h1
          exact ⟨hfst, hlen⟩
  | succ f ih =>
      intro i
      rcases horacle : oracle i with ⟨r, inf⟩ | ⟨e, inf⟩
      · have hunf : invokeGo tk pl p oracle i (f + 1) =
            (.ok r, [mkRecord tk pl p (oracle i)]) := by
          simp only [invokeGo, horacle]
        have hfst : (invokeGo tk pl p oracle i (f + 1)).1 = .ok r := by rw [hunf]
        have hsnd : (invokeGo tk pl p oracle i (f + 1)).2 =
            [mkRecord tk pl p (oracle i)] := by rw [hunf]
        have hlen : (invokeGo tk pl p oracle i (f + 1)).2.length = 1 := by
          rw [hsnd]
          rfl
        refine ⟨by omega, by omega, ?_, ?_, ?_, ?_⟩
        · rw [hsnd]
          simp only [List.length_singleton, List.range_succ_eq_map, List.range_zero, List.map_cons,
            List.map_nil, Nat.add_zero]
        · intro k hk
          rw [hlen] at hk
          exact absurd hk (by omega)
        · intro e2 he
          rw [hfst] at he
          exact Except.noConfusion he
        · intro e2 info2 hor2 hre2
          exact AttemptResult.noConfusion hor2
      · by_cases hre : retryable e = true
        · obtain ⟨ih1, ih2, ih3, ih4, ih5, ih6⟩ := ih (i + 1)
          have hunf : invokeGo tk pl p oracle i (f + 1) =
              ((invokeGo tk pl p oracle (i + 1) f).1,
                mkRecord tk pl p (oracle i) ::
                  (invokeGo tk pl p oracle (i + 1) f).2) := by
            simp only [invokeGo, horacle]
            rw [if_pos hre]
          have hfst : (invokeGo tk pl p oracle i (f + 1)).1 =
              (invokeGo tk pl p oracle (i + 1) f).1 := by rw [hunf]
          have hsnd : (invokeGo tk pl p oracle i (f + 1)).2 =
              mkRecord tk pl p (oracle i) ::
                (invokeGo tk pl p oracle (i + 1) f).2 := by rw [hunf]
          have hlen : (invokeGo tk pl p oracle i (f + 1)).2.length =
              (invokeGo tk pl p oracle (i + 1) f).2.length + 1 := by
            rw [hsnd, List.length_cons]
          refine ⟨?_, ?_, ?_, ?_, ?_, ?_⟩
          · omega
          · omega
          · rw [hsnd]
            simp only [List.length_cons]
            rw [List.range_succ_eq_map, List.map_cons, List.map_map]
            congr 1
            calc (invokeGo tk pl p oracle (i + 1) f).2
                = List.map (fun k => mkRecord tk pl p (oracle (i + 1 + k)))
                    (List.range (invokeGo tk pl p oracle (i + 1) f).2.length) := ih3
              _ = List.map ((fun k => mkRecord tk pl p (oracle (i + k))) ∘ Nat.succ)
                    (List.range (invokeGo tk pl p oracle (i + 1) f).2.length) := by
                  apply List.map_congr_left
                  intro k _
                  show mkRecord tk pl p (oracle (i + 1 + k)) =
                    mkRecord tk pl p (oracle (i + (k + 1)))
                  have harith : i + 1 + k = i + (k + 1) := by omega
                  rw [harith]
          · intro k hk
            rw [hlen] at hk
            cases k with
            | zero =>
                refine ⟨e, inf, ?_, hre⟩
                rw [Nat.add_zero]
                exact horacle
            | succ k2 =>
                have hk2 : k2 + 1 < (invokeGo tk pl p oracle (i + 1) f).2.length := by
                  omega
                obtain ⟨e2, info2, hor2, hre2⟩ := ih4 k2 hk2
                refine ⟨e2, info2, ?_, hre2⟩
                have harith : i + (k2 + 1) = i + 1 + k2 := by omega
                rw [harith]
                exact hor2
          · intro e2 he
            rw [hfst] at he
            obtain ⟨info2, hor2⟩ := ih5 e2 he
            refine ⟨info2, ?_⟩
            have harith : i + ((invokeGo tk pl p oracle i (f + 1)).2.length - 1) =
                i + 1 + ((invokeGo tk pl p oracle (i + 1) f).2.length - 1) := by
              rw [hlen]
              omega
            rw [harith]
            exact hor2
          · intro e2 info2 hor2 hre3
            injection hor2 with h1 h2
            subst h1
            rw [hre] at hre3
            exact Bool.noConfusion hre3
        · have hunf : invokeGo tk pl p oracle i (f + 1) =
              (.error e, [mkRecord tk pl p (oracle i)]) := by
            simp only [invokeGo, horacle]
            rw [if_neg hre]
          have hfst : (invokeGo tk pl p oracle i (f + 1)).1 = .error e := by rw [hunf]
          have hsnd : (invokeGo tk pl p oracle i (f + 1)).2 =
              [mkRecord tk pl p (oracle i)] := by rw [hunf]
          have hlen : (invokeGo tk pl p oracle i (f + 1)).2.length = 1 := by
            rw [hsnd]
            rfl
          refine ⟨by omega, by omega, ?_, ?_, ?_, ?_⟩
          · rw [hsnd]
            simp only [List.length_singleton, List.range_succ_eq_map, List.range_zero, List.map_cons,
              List.map_nil, Nat.add_zero]
          · intro k hk
            rw [hlen] at hk
            exact absurd hk (by omega)
          · intro e2 he
            rw [hfst] at he
            injection he with h1
            subst h1
            refine ⟨inf, ?_⟩
            rw [hlen]
            simpa using horacle
          · intro e3 info3 hor3 hre3
            injection hor3 with h1 h2
            subst h1
            exact ⟨hfst, hlen⟩

/-- C4: for every provider and attempt oracle, `invoke` makes at least one
and at most `max_retries + 1` attempts; the Cost Ledger records are
exactly one per attempt, in order (so every attempt, successful or failed,
appends exactly one Invocation Record); every attempt that is followed by
a further attempt failed with a retryable error (`ProviderTimeout` or
`ProviderRateLimited`); a returned error is the last attempt's error; and
a `ProviderError` on the first attempt is returned immediately with
exactly one attempt made. -/
theorem invoke_retry_policy (tk : TaskKind) (pl : PrivacyLevel) (p : ProviderProfile)
    (oracle : Nat → AttemptResult) :
    1 ≤ (invoke tk pl p oracle).2.length ∧
    (invoke tk pl p oracle).2.length ≤ p.max_retries + 1 ∧
    (invoke tk pl p oracle).2 =
      (List.range (invoke tk pl p oracle).2.length).map
        (fun k => mkRecord tk pl p (oracle k)) ∧
    (∀ k, k + 1 < (invoke tk pl p oracle).2.length →
      ∃ e info, oracle k = .failure e info ∧ retryable e = true) ∧
    (∀ e, (invoke tk pl p oracle).1 = .error e →
      ∃ info, oracle ((invoke tk pl p oracle).2.length - 1) = .failure e info) ∧
    (∀ info, oracle 0 = .failure .ProviderError info →
      (invoke tk pl p oracle).1 = .error .ProviderError ∧
      (invoke tk pl p oracle).2.length = 1) := by
  obtain ⟨h1, h2, h3, h4, h5, h6⟩ := invokeGo_spec tk pl p oracle p.max_retries 0
  refine ⟨h1, h2, ?_, ?_, ?_, ?_⟩
  · calc (invoke tk pl p oracle).2
        = (List.range (invoke tk pl p oracle).2.length).map
            (fun k => mkRecord tk pl p (oracle (0 + k))) := h3
      _ = (List.range (invoke tk pl p oracle).2.length).map
            (fun k => mkRecord tk pl p (oracle k)) := by
          apply List.map_congr_left
          intro k _
          show mkRecord tk pl p (oracle (0 + k)) = mkRecord tk pl p (oracle k)
          rw [Nat.zero_add]
  · intro k hk
    obtain ⟨e, info, hor, hre⟩ := h4 k hk
    rw [Nat.zero_add] at hor
    exact ⟨e, info, hor, hre⟩
  · intro e he
    obtain ⟨info, hor⟩ := h5 e he
    rw [Nat.zero_add] at hor
    exact ⟨info, hor⟩
  · intro info hor
    exact h6 .ProviderError info hor rfl

/-- Concrete attempt data for the C4 witness. -/
def witnessInfo : AttemptInfo :=
  { input_tokens := 120, output_tokens := 0, latency_ms := 45, cost_estimate := 1 }

/-- Concrete oracle failing with a non-retryable `ProviderError` on every
attempt, used by the C4 witness. -/
def alwaysProviderError : Nat → AttemptResult :=
  fun _ => .failure .ProviderError witnessInfo

/-- Witness for C4: with `max_retries = 2`, a first-attempt
`ProviderError` is surfaced immediately after exactly one attempt and one
ledger record. -/
theorem invoke_retry_policy_witness :
    alwaysProviderError 0 = .failure .ProviderError witnessInfo ∧
    (invoke .connection .«private» remoteProvider alwaysProviderError).1 =
      .error .ProviderError ∧
    (invoke .connection .«private» remoteProvider alwaysProviderError).2.length = 1 := by
  refine ⟨rfl, ?_⟩
  exact (invoke_retry_policy .connection .«private» remoteProvider
    alwaysProviderError).2.2.2.2.2 witnessInfo rfl

/-- Modelled from the spec: the restrictiveness order on privacy levels
(public < private < sensitive < encrypted), used to take the more
restrictive of two levels (spec section 4.5). -/
def restrictiveness : PrivacyLevel → Nat
  | .«public» => 0
  | .«private» => 1
  | .sensitive => 2
  | .encrypted => 3

/-- Modelled from the spec: the effective privacy level of a node pair is
the more restrictive of the two nodes' levels (spec section 4.5). -/
def effectiveLevel (a b : PrivacyLevel) : PrivacyLevel :=
  if restrictiveness b ≤ restrictiveness a then a else b

theorem isRestricted_effectiveLevel (a b : PrivacyLevel) :
    isRestricted (effectiveLevel a b) = (isRestricted a || isRestricted b) := by
  cases a <;> cases b <;> rfl

/-- Modelled from the spec: a candidate node pair proposed by the
Candidate Generator (spec sections 3 and 4.4). -/
structure Candidate where
  a : Node
  b : Node
deriving DecidableEq, Repr

/-- Modelled from the spec: the per-run budget of the Connection Discovery
Engine (spec section 4.5): `max_invocations` and `max_cost`. -/
structure Budget where
  max_invocations : Nat
  max_cost : Rat
deriving DecidableEq, Repr

/-- Modelled from the spec: why a candidate was skipped (spec sections 4.5
and 7): routing failed with `NoEligibleProvider`, or the invocation
ultimately failed after retries. -/
inductive SkipReason where
  | noProvider
  | providerFailure (e : InvokeErr)
deriving DecidableEq, Repr

/-- Modelled from the spec: DiscoveryReport (spec sections 4.5 and 7) —
accepted edges, skipped candidates with reasons, number of invocations
made and total cost incurred. -/
structure DiscoveryReport where
  accepted : List Edge
  skipped : List (Candidate × SkipReason)
  invocations : Nat
  total_cost : Rat
deriving DecidableEq, Repr

/-- Modelled from the spec: process-wide read-only configuration of the
engine (spec sections 4.2, 4.5 and 6): the Provider Profiles, the default
provider name per task kind and the acceptance-confidence threshold. -/
structure EngineConfig where
  providers : List ProviderProfile
  default_for : TaskKind → String
  threshold : Rat

/-- Modelled from the spec: build the Edge for an accepted structured
result, with the unordered pair represented canonically with the smaller
id first (spec section 3) and `discovered_by` the provider that produced
the result. -/
def canonicalEdge (c : Candidate) (r : StructuredResult) (p : ProviderProfile) : Edge :=
  if c.a.id ≤ c.b.id then
    { source_id := c.a.id, target_id := c.b.id, relation_kind := r.relation_kind,
      confidence := r.confidence, rationale := r.rationale, discovered_by := p }
  else
    { source_id := c.b.id, target_id := c.a.id, relation_kind := r.relation_kind,
      confidence := r.confidence, rationale := r.rationale, discovered_by := p }

/-- Modelled from the spec: summed cost of a list of Invocation Records,
the Cost Ledger's running total over this run (spec sections 4.5 and
4.7). -/
def recordsCost (l : List InvocationRecord) : Rat :=
  (l.map (fun x => x.cost_estimate)).sum

/-- Modelled from the spec: the report after an invocation's attempt
records have been appended to the Cost Ledger — the invocation counter
and the running cost total both grow by the attempts made (spec sections
4.5 and 4.7). -/
def reportAfterInvocation (rep : DiscoveryReport)
    (recs : List InvocationRecord) : DiscoveryReport :=
  { rep with
    invocations := rep.invocations + recs.length,
    total_cost := rep.total_cost + recordsCost recs }

/-- Modelled from the spec: the orchestration loop of
`run(budget) -> DiscoveryReport` (spec section 4.5).  Before each
candidate, stop if either budget bound (invocation count or cost, read
from the running total) has been reached; otherwise classify the pair's
effective privacy level as the more restrictive of the two nodes' levels,
route via the Provider Router (skipping the candidate on
`NoEligibleProvider`), invoke via the LLM Invocation Layer (appending all
attempt records, skipping on ultimate failure), and on a result whose
confidence exceeds the acceptance threshold upsert the corresponding
Edge; a single failure never aborts the run. -/
def runGo (cfg : EngineConfig) (oracle : Candidate → Nat → AttemptResult)
    (budget : Budget) :
    List Candidate → List Edge → DiscoveryReport → List Edge × DiscoveryReport
  | [], edges, rep => (edges, rep)
  | c :: rest, edges, rep =>
      if budget.max_invocations ≤ rep.invocations ∨ budget.max_cost ≤ rep.total_cost then
        (edges, rep)
      else
        match select_provider .connection
            (effectiveLevel c.a.privacy_level c.b.privacy_level)
            cfg.default_for cfg.providers with
        | .error _ =>
            runGo cfg oracle budget rest edges
              { rep with skipped := rep.skipped ++ [(c, .noProvider)] }
        | .ok p =>
            match invoke .connection
                (effectiveLevel c.a.privacy_level c.b.privacy_level) p (oracle c) with
            | (.error e, recs) =>
                runGo cfg oracle budget rest edges
                  { reportAfterInvocation rep recs with
                    skipped := rep.skipped ++ [(c, .providerFailure e)] }
            | (.ok r, recs) =>
                if cfg.threshold < r.confidence then
                  runGo cfg oracle budget rest
                    (upsert_edge edges (canonicalEdge c r p))
                    { reportAfterInvocation rep recs with
                      accepted := rep.accepted ++ [canonicalEdge c r p] }
                else
                  runGo cfg oracle budget rest edges (reportAfterInvocation rep recs)

/-- Modelled from the spec: `run(budget) -> DiscoveryReport` (spec section
4.5), starting from the current edge store and an empty report. -/
def run (cfg : EngineConfig) (oracle : Candidate → Nat → AttemptResult)
    (budget : Budget) (cands : List Candidate) (edges0 : List Edge) :
    List Edge × DiscoveryReport :=
  runGo cfg oracle budget cands edges0
    { accepted := [], skipped := [], invocations := 0, total_cost := 0 }

/-- The central privacy invariant of spec section 3, for one Edge relative
to an assignment of privacy levels to node ids: if either referenced
node's level is sensitive or encrypted, the Edge's `discovered_by`
resolves to a local provider. -/
def EdgeOk (lvl : Nat → PrivacyLevel) (e : Edge) : Prop :=
  (isRestricted (lvl e.source_id) = true ∨ isRestricted (lvl e.target_id) = true) →
    e.discovered_by.is_local = true

/-- `applyUpdate` keeps ids and `discovered_by`, hence preserves the
privacy invariant. -/
theorem edgeOk_applyUpdate (lvl : Nat → PrivacyLevel) (e x : Edge)
    (hx : EdgeOk lvl x) : EdgeOk lvl (applyUpdate e x) := by
  unfold applyUpdate
  by_cases h : edgeKeyMatches x e = true
  · rw [if_pos h]
    intro hres
    exact hx hres
  · rw [if_neg h]
    exact hx

/-- Every edge of `upsert_edge g e` is an old edge of `g`, the new edge
`e`, or an update of an old edge; the privacy invariant is preserved. -/
theorem edgeOk_upsert (lvl : Nat → PrivacyLevel) (g : List Edge) (e : Edge)
    (hg : ∀ x ∈ g, EdgeOk lvl x) (he : EdgeOk lvl e) :
    ∀ x ∈ upsert_edge g e, EdgeOk lvl x := by
  intro x hx
  unfold upsert_edge at hx
  rcases hfind : g.find? (fun y => edgeKeyMatches y e) with _ | old
  · rw [hfind] at hx
    have hred : (match (none : Option Edge) with
        | none => g ++ [e]
        | some o => if o.confidence < e.confidence then List.map (applyUpdate e) g
            else g) = g ++ [e] := rfl
    rw [hred] at hx
    rcases List.mem_append.mp hx with h | h
    · exact hg x h
    · rw [List.mem_singleton.mp h]
      exact he
  · rw [hfind] at hx
    have hred : (match some old with
        | none => g ++ [e]
        | some o => if o.confidence < e.confidence then List.map (applyUpdate e) g
            else g) =
        (if old.confidence < e.confidence then List.map (applyUpdate e) g else g) := rfl
    rw [hred] at hx
    by_cases hc : old.confidence < e.confidence
    · rw [if_pos hc] at hx
      obtain ⟨y, hy, hyx⟩ := List.mem_map.mp hx
      rw [← hyx]
      exact edgeOk_applyUpdate lvl e y (hg y hy)
    · rw [if_neg hc] at hx
      exact hg x hx

/-- `canonicalEdge` references exactly the candidate's two node ids. -/
theorem canonicalEdge_ids (c : Candidate) (r : StructuredResult) (p : ProviderProfile) :
    ((canonicalEdge c r p).source_id = c.a.id ∧ (canonicalEdge c r p).target_id = c.b.id) ∨
    ((canonicalEdge c r p).source_id = c.b.id ∧ (canonicalEdge c r p).target_id = c.a.id) := by
  unfold canonicalEdge
  by_cases h : c.a.id ≤ c.b.id
  · rw [if_pos h]
    exact Or.inl ⟨rfl, rfl⟩
  · rw [if_neg h]
    exact Or.inr ⟨rfl, rfl⟩

/-- `canonicalEdge` records the selecting provider as `discovered_by`. -/
theorem canonicalEdge_discovered_by (c : Candidate) (r : StructuredResult)
    (p : ProviderProfile) : (canonicalEdge c r p).discovered_by = p := by
  unfold canonicalEdge
  by_cases h : c.a.id ≤ c.b.id
  · rw [if_pos h]
  · rw [if_neg h]

/-- An edge accepted for candidate `c` through the Provider Router
satisfies the privacy invariant: the router was called at the pair's
effective level, so when either node is restricted the selected provider
is local. -/
theorem edgeOk_canonicalEdge (cfg : EngineConfig) (lvl : Nat → PrivacyLevel)
    (c : Candidate) (r : StructuredResult) (p : ProviderProfile)
    (hca : lvl c.a.id = c.a.privacy_level) (hcb : lvl c.b.id = c.b.privacy_level)
    (hsel : select_provider .connection
      (effectiveLevel c.a.privacy_level c.b.privacy_level)
      cfg.default_for cfg.providers = .ok p) :
    EdgeOk lvl (canonicalEdge c r p) := by
  intro hres
  rw [canonicalEdge_discovered_by]
  apply select_provider_local _ _ _ _ _ _ hsel
  rw [isRestricted_effectiveLevel]
  rcases canonicalEdge_ids c r p with ⟨h1, h2⟩ | ⟨h1, h2⟩ <;>
    rcases hres with hres | hres
  · rw [h1, hca] at hres
    rw [hres]
    rfl
  · rw [h2, hcb] at hres
    rw [hres]
    simp
  · rw [h1, hcb] at hres
    rw [hres]
    simp
  · rw [h2, hca] at hres
    rw [hres]
    rfl

/-- Invariant preservation for the orchestration loop. -/
theorem runGo_edgeOk (cfg : EngineConfig) (oracle : Candidate → Nat → AttemptResult)
    (budget : Budget) (lvl : Nat → PrivacyLevel) :
    ∀ (cands : List Candidate) (edges : List Edge) (rep : DiscoveryReport),
      (∀ c ∈ cands, lvl c.a.id = c.a.privacy_level ∧ lvl c.b.id = c.b.privacy_level) →
      (∀ x ∈ edges, EdgeOk lvl x) →
      ∀ x ∈ (runGo cfg oracle budget cands edges rep).1, EdgeOk lvl x := by
  intro cands
  induction cands with
  | nil =>
      intro edges rep _ hedges
      exact hedges
  | cons c rest ih =>
      intro edges rep hcands hedges
      have hc := hcands c (List.mem_cons_self c rest)
      have hrest : ∀ c2 ∈ rest, lvl c2.a.id = c2.a.privacy_level ∧
          lvl c2.b.id = c2.b.privacy_level :=
        fun c2 h2 => hcands c2 (List.mem_cons_of_mem c h2)
      unfold runGo
      by_cases hstop : budget.max_invocations ≤ rep.invocations ∨
          budget.max_cost ≤ rep.total_cost
      · rw [if_pos hstop]
        exact hedges
      · rw [if_neg hstop]
        split
        · exact ih edges _ hrest hedges
        · next p hsel =>
            split
            · next e recs hres =>
                exact ih edges _ hrest hedges
            · next r recs hres =>
                split
                · apply ih _ _ hrest
                  apply edgeOk_upsert lvl edges _ hedges
                  exact edgeOk_canonicalEdge cfg lvl c r p hc.1 hc.2 hsel
                · exact ih edges _ hrest hedges

/-- C1: central privacy invariant — for every engine configuration,
oracle, budget, candidate list consistent with the node-id privacy-level
assignment, and initial edge store satisfying the invariant, every Edge in
the store after a discovery run still satisfies it: an Edge referencing a
node whose privacy level is sensitive or encrypted has a `discovered_by`
provider with `is_local = true`; no operation of the run ever creates a
violating Edge. -/
theorem run_privacy_invariant (cfg : EngineConfig)
    (oracle : Candidate → Nat → AttemptResult) (budget : Budget)
    (lvl : Nat → PrivacyLevel) (cands : List Candidate) (edges0 : List Edge)
    (hcands : ∀ c ∈ cands, lvl c.a.id = c.a.privacy_level ∧
      lvl c.b.id = c.b.privacy_level)
    (hedges0 : ∀ x ∈ edges0, EdgeOk lvl x) :
    ∀ x ∈ (run cfg oracle budget cands edges0).1, EdgeOk lvl x :=
  runGo_edgeOk cfg oracle budget lvl cands edges0 _ hcands hedges0

/-- C6: a run with `max_invocations = 0` terminates immediately — for
every configuration, oracle, cost bound, candidate list and initial edge
store it returns the edge store unchanged and a report with zero accepted
edges, zero invocations, zero cost and no skipped candidates. -/
theorem run_zero_budget (cfg : EngineConfig)
    (oracle : Candidate → Nat → AttemptResult) (m : Rat)
    (cands : List Candidate) (edges0 : List Edge) :
    (run cfg oracle ⟨0, m⟩ cands edges0).1 = edges0 ∧
    (run cfg oracle ⟨0, m⟩ cands edges0).2.accepted = [] ∧
    (run cfg oracle ⟨0, m⟩ cands edges0).2.invocations = 0 ∧
    (run cfg oracle ⟨0, m⟩ cands edges0).2.total_cost = 0 ∧
    (run cfg oracle ⟨0, m⟩ cands edges0).2.skipped = [] := by
  cases cands with
  | nil => exact ⟨rfl, rfl, rfl, rfl, rfl⟩
  | cons c rest =>
      have hrun : run cfg oracle ⟨0, m⟩ (c :: rest) edges0 =
          (edges0, DiscoveryReport.mk [] [] 0 0) := by
        unfold run runGo
        rw [if_pos (Or.inl (Nat.le_refl 0))]
      rw [hrun]
      exact ⟨rfl, rfl, rfl, rfl, rfl⟩

/-- Sensitive node used by the C1 witness. -/
def sensitiveNode : Node :=
  { id := 1, type := .note, privacy_level := .sensitive,
    content_fingerprint := 11, tags := ["therapy"],
    explicit_level := none, shareable := false }

/-- Private node used by the C1 witness. -/
def privateNode : Node :=
  { id := 2, type := .document, privacy_level := .«private»,
    content_fingerprint := 22, tags := ["work"],
    explicit_level := none, shareable := false }

/-- Privacy-level assignment of the C1 witness. -/
def witnessLvl : Nat → PrivacyLevel :=
  fun i => if i == 1 then .sensitive else .«private»

/-- Engine configuration of the C1 witness: one local and one remote
provider, the local one configured as default, acceptance threshold 0. -/
def witnessCfg : EngineConfig :=
  { providers := [remoteProvider, localProvider],
    default_for := fun _ => "ollama-local", threshold := 0 }

/-- Structured result returned by the witness oracle. -/
def witnessResult : StructuredResult :=
  { relation_kind := .related, confidence := 1, rationale := "shared topic" }

/-- Oracle of the C1 witness: every attempt succeeds with full
confidence. -/
def witnessOracle : Candidate → Nat → AttemptResult :=
  fun _ _ => .success witnessResult witnessInfo

/-- Witness for C1: a run on a sensitive/private pair with a local
provider available produces only edges satisfying the privacy
invariant. -/
theorem run_privacy_invariant_witness :
    (∀ c ∈ [Candidate.mk sensitiveNode privateNode],
      witnessLvl c.a.id = c.a.privacy_level ∧ witnessLvl c.b.id = c.b.privacy_level) ∧
    (∀ x ∈ ([] : List Edge), EdgeOk witnessLvl x) ∧
    (∀ x ∈ (run witnessCfg witnessOracle ⟨10, 100⟩
      [Candidate.mk sensitiveNode privateNode] []).1, EdgeOk witnessLvl x) := by
  refine ⟨?_, ?_, ?_⟩
  · intro c hc
    rw [List.mem_singleton.mp hc]
    exact ⟨rfl, rfl⟩
  · intro x hx
    exact absurd hx (List.not_mem_nil x)
  · exact run_privacy_invariant witnessCfg witnessOracle ⟨10, 100⟩ witnessLvl
      [Candidate.mk sensitiveNode privateNode] []
      (fun c hc => by
        rw [List.mem_singleton.mp hc]
        exact ⟨rfl, rfl⟩)
      (fun x hx => absurd hx (List.not_mem_nil x))

/-- Witness for C6: a concrete zero-invocation run on a nonempty candidate
list accepts no edge and makes no invocation. -/
theorem run_zero_budget_witness :
    (run witnessCfg witnessOracle ⟨0, 7⟩
      [Candidate.mk sensitiveNode privateNode] []).2.accepted = [] ∧
    (run witnessCfg witnessOracle ⟨0, 7⟩
      [Candidate.mk sensitiveNode privateNode] []).2.invocations = 0 :=
  ⟨(run_zero_budget witnessCfg witnessOracle 7
      [Candidate.mk sensitiveNode privateNode] []).2.1,
   (run_zero_budget witnessCfg witnessOracle 7
      [Candidate.mk sensitiveNode privateNode] []).2.2.1⟩

/-- The value list of `node_type_enum` as created by
`scripts/init-postgres.sql` lines 10 to 14, in source order. -/
def node_type_enum : List String :=
  ["note", "document", "person", "concept", "project",
   "company", "vendor", "technology", "location", "event",
   "task", "topic", "book", "article", "bookmark", "email", "rss_item"]

/-- The value list of `privacy_level_enum` as created by
`scripts/init-postgres.sql` line 20, in source order. -/
def privacy_level_enum : List String :=
  ["public", "private", "sensitive", "encrypted"]

/-- The node type vocabulary exactly as the spec's data model lists it
(spec section 3), in the spec's order. -/
def specNodeTypes : List String :=
  ["note", "document", "person", "concept", "project",
   "company", "vendor", "technology", "location", "event",
   "task", "topic", "book", "article", "bookmark", "email", "rss_item"]

/-- The privacy level vocabulary exactly as the spec's data model lists it
(spec section 3). -/
def specPrivacyLevels : List String :=
  ["public", "private", "sensitive", "encrypted"]

/-- C7: the persisted type vocabularies equal the spec's — the SQL
`node_type_enum` is exactly the seventeen spec values (no duplicates, no
extras) and `privacy_level_enum` is exactly the four spec values. -/
theorem enum_vocabularies_match_spec :
    node_type_enum = specNodeTypes ∧
    node_type_enum.length = 17 ∧
    node_type_enum.Nodup ∧
    privacy_level_enum = specPrivacyLevels ∧
    privacy_level_enum.length = 4 ∧
    privacy_level_enum.Nodup :=
  ⟨rfl, rfl, by decide, rfl, rfl, by decide⟩

/-- An HTML checkbox input as rendered by the frontend, with its React
`defaultChecked` attribute. -/
structure Checkbox where
  defaultChecked : Bool
deriving DecidableEq, Repr

/-- The privacy toggle row of the settings page: its label, description
and checkbox. -/
structure PrivacyToggle where
  label : String
  description : String
  checkbox : Checkbox
deriving DecidableEq, Repr

/-- The rendered content of `SettingsPage`
(`frontend/src/components/SettingsPage.jsx`): the integration rows, the
LLM provider rows and the privacy toggle.  The component reads no props
and no application state, so it renders the same view for any input. -/
structure SettingsPageView where
  integrations : List (String × String)
  llm_providers : List (String × String)
  privacy_toggle : PrivacyToggle
deriving DecidableEq, Repr

/-- `SettingsPage` as a function of arbitrary application state, embedded
from the JSX: the component takes no props and touches no state, so the
parameter is ignored and every field is a literal from the source. -/
def SettingsPage {σ : Type} (_appState : σ) : SettingsPageView :=
  { integrations :=
      [("Standard Notes", "Not configured"), ("Paperless-ngx", "Not configured"),
       ("Email", "Not configured"), ("RSS Feeds", "Not configured")],
    llm_providers :=
      [("Anthropic Claude", "Not configured"), ("OpenAI", "Not configured"),
       ("Ollama (Local)", "Available"), ("Google Gemini", "Not configured")],
    privacy_toggle :=
      { label := "Use local LLM for sensitive content",
        description := "Content tagged as sensitive will only use local Ollama models",
        checkbox := { defaultChecked := true } } }

/-- C8: for any application state, the settings page's "Use local LLM for
sensitive content" privacy toggle renders with its checkbox checked by
default (`defaultChecked` set). -/
theorem settings_privacy_toggle_default_on {σ : Type} (appState : σ) :
    (SettingsPage appState).privacy_toggle.checkbox.defaultChecked = true ∧
    (SettingsPage appState).privacy_toggle.label = "Use local LLM for sensitive content" :=
  ⟨rfl, rfl⟩

/-- Witness for C8: at a concrete application state, the privacy toggle's
checkbox is checked by default. -/
theorem settings_privacy_toggle_default_on_witness :
    (SettingsPage ()).privacy_toggle.checkbox.defaultChecked = true :=
  (settings_privacy_toggle_default_on ()).1

/-- A table row as seen by the `update_updated_at_column` trigger: the
`updated_at` column and, abstractly, all other columns of the row. -/
structure TriggerRow (α : Type) where
  updated_at : Nat
  otherColumns : α

/-- `update_updated_at_column` from `scripts/init-postgres.sql` lines 33
to 39: `NEW.updated_at = NOW(); RETURN NEW;` — returns the row `NEW` with
`updated_at` set to the current time and nothing else changed. -/
def update_updated_at_column {α : Type} (now : Nat) (NEW : TriggerRow α) :
    TriggerRow α :=
  { NEW with updated_at := now }

/-- C9: for every row NEW and every current time, the trigger function
returns NEW with `updated_at` set to NOW() and every other column
unchanged, regardless of any `updated_at` value the caller supplied. -/
theorem update_updated_at_column_spec {α : Type} (now : Nat) (NEW : TriggerRow α) :
    (update_updated_at_column now NEW).updated_at = now ∧
    (update_updated_at_column now NEW).otherColumns = NEW.otherColumns :=
  ⟨rfl, rfl⟩

/-- Witness for C9: at a concrete row with a caller-supplied `updated_at`
of 5, the trigger returns `updated_at = 99` and the other columns
untouched. -/
theorem update_updated_at_column_spec_witness :
    (update_updated_at_column 99 (TriggerRow.mk 5 "payload")).updated_at = 99 ∧
    (update_updated_at_column 99 (TriggerRow.mk 5 "payload")).otherColumns = "payload" :=
  update_updated_at_column_spec 99 (TriggerRow.mk 5 "payload")

/-- The graph statistics payload of `GET /api/v1/graph/statistics` as the
Dashboard reads it: each count may be absent or null. -/
structure GraphStatistics where
  total_nodes : Option Int
  total_edges : Option Int
deriving DecidableEq, Repr

/-- JavaScript `v || 0` on an optionally-present number: `0` when the
value is missing (undefined or null) or itself falsy (`0`). -/
def jsOrZero : Option Int → Int
  | none => 0
  | some v => if v == 0 then 0 else v

/-- One statistics card of the Dashboard. -/
structure StatCardView where
  title : String
  value : Int
  icon : String
deriving DecidableEq, Repr

/-- The four statistics cards of the Dashboard. -/
structure DashboardView where
  totalNodesCard : StatCardView
  totalConnectionsCard : StatCardView
  newInsightsCard : StatCardView
  activeIntegrationsCard : StatCardView
deriving DecidableEq, Repr

/-- `Dashboard` (`frontend/src/components/Dashboard.jsx`) as a function of
the statistics query state: `stats` is `none` while the query has not
resolved; `stats?.total_nodes || 0` and `stats?.total_edges || 0` feed the
first two cards, and the last two cards are the literal `0`. -/
def Dashboard (stats : Option GraphStatistics) : DashboardView :=
  { totalNodesCard :=
      { title := "Total Nodes",
        value := jsOrZero (stats.bind (fun s => s.total_nodes)), icon := "📊" },
    totalConnectionsCard :=
      { title := "Total Connections",
        value := jsOrZero (stats.bind (fun s => s.total_edges)), icon := "🔗" },
    newInsightsCard := { title := "New Insights", value := 0, icon := "💡" },
    activeIntegrationsCard :=
      { title := "Active Integrations", value := 0, icon := "🔄" } }

/-- C10: the Dashboard degrades to zero rather than failing — whenever the
statistics are not yet loaded or a count is absent or null, the
corresponding card renders 0, and the New Insights and Active
Integrations cards render 0 unconditionally for every input. -/
theorem dashboard_defaults_to_zero (stats : Option GraphStatistics) :
    (stats.bind (fun s => s.total_nodes) = none →
      (Dashboard stats).totalNodesCard.value = 0) ∧
    (stats.bind (fun s => s.total_edges) = none →
      (Dashboard stats).totalConnectionsCard.value = 0) ∧
    (Dashboard stats).newInsightsCard.value = 0 ∧
    (Dashboard stats).activeIntegrationsCard.value = 0 := by
  refine ⟨?_, ?_, rfl, rfl⟩
  · intro h
    show jsOrZero (stats.bind (fun s => s.total_nodes)) = 0
    rw [h]
    rfl
  · intro h
    show jsOrZero (stats.bind (fun s => s.total_edges)) = 0
    rw [h]
    rfl

/-- Witness for C10: with the statistics query unresolved, all four cards
render 0. -/
theorem dashboard_defaults_to_zero_witness :
    (Option.bind (none : Option GraphStatistics) (fun s => s.total_nodes) = none) ∧
    (Dashboard none).totalNodesCard.value = 0 ∧
    (Dashboard none).totalConnectionsCard.value = 0 ∧
    (Dashboard none).newInsightsCard.value = 0 ∧
    (Dashboard none).activeIntegrationsCard.value = 0 := by
  refine ⟨rfl, ?_, ?_, ?_, ?_⟩
  · exact (dashboard_defaults_to_zero none).1 rfl
  · exact (dashboard_defaults_to_zero none).2.1 rfl
  · exact (dashboard_defaults_to_zero none).2.2.1
  · exact (dashboard_defaults_to_zero none).2.2.2

end Bdpkg
